import Mathlib

/-!
Verification of the coupon schedule engine of `src/lib/coupon.js` (finxl.js).

The file embeds the six public functions (`coupdaybs`, `coupdays`,
`coupdaysnc`, `coupncd`, `coupnum`, `couppcd`) and the argument validator
`argsValidator` shallowly.  The date collaborators imported from
`@/_internal/dates` (`daysBetween`, `addDate`, `getDaysInYear`, `isEOM`,
`splitDate`) and `hasRequiredArgs` are not part of the given sources; they
are modelled from the specification's collaborator contracts (spec §6), as
marked on each definition.  Dates are calendar dates at day granularity
(year, 0-based month as JavaScript's `getUTCMonth`, day of month); the
JavaScript `while` loops are embedded with an explicit fuel that is proven
sufficient for every input that passes validation.
-/

namespace Finxl

/-- Calendar date at day granularity: year, 0-based month (the convention of
JavaScript's `Date.prototype.getUTCMonth`), and day of month. -/
structure CDate where
  year : Int
  month : Fin 12
  day : Int
deriving DecidableEq, Repr

/-- Strict chronological order on calendar dates.  For canonical dates this
is exactly the JavaScript timestamp comparison `+a < +b` used in the loops
of coupon.js. -/
def CDate.lt (a b : CDate) : Prop :=
  a.year < b.year ∨
    (a.year = b.year ∧
      (a.month.val < b.month.val ∨ (a.month.val = b.month.val ∧ a.day < b.day)))

instance (a b : CDate) : Decidable (CDate.lt a b) := by
  unfold CDate.lt; infer_instance

/-- Reflexive chronological order on calendar dates. -/
def CDate.le (a b : CDate) : Prop :=
  CDate.lt a b ∨ a = b

instance (a b : CDate) : Decidable (CDate.le a b) := by
  unfold CDate.le; infer_instance

/-- Gregorian leap-year rule, as implemented by JavaScript `Date`. -/
def isLeapYear (y : Int) : Bool :=
  (y % 4 == 0 && !(y % 100 == 0)) || y % 400 == 0

/-- Number of days of the month `m` (0-based) of year `y`. -/
def daysInMonth (y : Int) (m : Fin 12) : Int :=
  if m.val = 1 then (if isLeapYear y then 29 else 28)
  else if m.val = 3 ∨ m.val = 5 ∨ m.val = 8 ∨ m.val = 10 then 30
  else 31

/-- A canonical (well-formed) calendar date: the day lies inside its month.
Every value JavaScript's `Date` hands out through `getUTC*` satisfies this. -/
def CDate.Wf (d : CDate) : Prop :=
  1 ≤ d.day ∧ d.day ≤ daysInMonth d.year d.month

instance (d : CDate) : Decidable d.Wf := by
  unfold CDate.Wf; infer_instance

/-- Month index on the time line: `12 * year + month`.  One backward step of
`couppcd` subtracts exactly `12 / frequency` from it. -/
def monthIndex (d : CDate) : Int :=
  12 * d.year + d.month.val

/-- The month following `(y, m)`. -/
def nextMonth (y : Int) (m : Fin 12) : Int × Fin 12 :=
  if h : m.val = 11 then (y + 1, ⟨0, by omega⟩)
  else (y, ⟨m.val + 1, by have := m.isLt; omega⟩)

/-- The month preceding `(y, m)`. -/
def prevMonth (y : Int) (m : Fin 12) : Int × Fin 12 :=
  if h : m.val = 0 then (y - 1, ⟨11, by omega⟩)
  else (y, ⟨m.val - 1, by have := m.isLt; omega⟩)

/-- Modelled from the spec: the day-of-month normalisation JavaScript's
`Date` performs in `new Date(y, m, day)` and `setUTCDate(day)`.  A day of 0
is the last day of the previous month, and a day exceeding the month's
length rolls into the following month.  coupon.js only ever normalises days
in `[0, 31]`, one month away from a canonical date, which this definition
covers exactly. -/
def dayNorm (y : Int) (m : Fin 12) (day : Int) : CDate :=
  if day < 1 then
    let p := prevMonth y m
    ⟨p.1, p.2, daysInMonth p.1 p.2 + day⟩
  else if day ≤ daysInMonth y m then ⟨y, m, day⟩
  else
    let n := nextMonth y m
    ⟨n.1, n.2, day - daysInMonth y m⟩

/-- Fin-12 month from an unbounded month index, as JavaScript normalises the
month argument of `new Date(y, m, d)`. -/
def monthFin (mi : Int) : Fin 12 :=
  ⟨(mi.fmod 12).toNat, by
    have h1 : 0 ≤ mi.fmod 12 := Int.fmod_nonneg' mi (by norm_num)
    have h2 : mi.fmod 12 < 12 := Int.fmod_lt_of_pos mi (by norm_num)
    omega⟩

/-- The JavaScript constructor `new Date(y, mi, day)` (read back through the
`getUTC*` accessors, at day granularity): month overflow is carried into the
year, then the day is normalised. -/
def mkDate (y : Int) (mi : Int) (day : Int) : CDate :=
  let ymi : Int := 12 * y + mi
  dayNorm (ymi.fdiv 12) (monthFin ymi) day

/-- The JavaScript mutator `d.setUTCDate(n)`, modelled functionally. -/
def setDate (d : CDate) (n : Int) : CDate :=
  dayNorm d.year d.month n

/-- Modelled from the spec: `isEndOfMonth(date)` — the date is the last
calendar day of its month. -/
def isEOM (d : CDate) : Bool :=
  d.day == daysInMonth d.year d.month

/-- Modelled from the spec: `splitDate(date) → (year, month, day)`, the raw
`getUTCFullYear` / `getUTCMonth` / `getUTCDate` decomposition (month is
0-based; the spec's recorded outputs of `coupncd` pin this convention). -/
def splitDate (d : CDate) : Int × Nat × Int :=
  (d.year, d.month.val, d.day)

/-- Modelled from the spec: `addCalendarOffset(date, years, months, days,
endOfMonthFlag)` — the date shifted by the given calendar offset, the day
clamped into the target month; if the flag is set and the input date is the
last day of its month, the result is forced to the last day of the resulting
month.  The `days` component of the offset is zero at every call site in
coupon.js and is omitted here. -/
def addDate (d : CDate) (years months : Int) (eom : Bool) : CDate :=
  let mi : Int := 12 * d.year + d.month.val + 12 * years + months
  let y : Int := mi.fdiv 12
  let m : Fin 12 := monthFin mi
  if eom && isEOM d then ⟨y, m, daysInMonth y m⟩
  else ⟨y, m, min d.day (daysInMonth y m)⟩

/-- Modelled from the spec: day number of a date (days since 1970-01-01),
used for the actual day-count bases. -/
def rataDie (d : CDate) : Int :=
  let mm : Int := d.month.val + 1
  let y : Int := d.year - (if mm ≤ 2 then 1 else 0)
  let era : Int := y.fdiv 400
  let yoe : Int := y - era * 400
  let mp : Int := (mm + 9).fmod 12
  let doy : Int := (153 * mp + 2).fdiv 5 + d.day - 1
  let doe : Int := yoe * 365 + yoe.fdiv 4 - yoe.fdiv 100 + doy
  era * 146097 + doe - 719468

/-- Modelled from the spec: `dayCount(dateA, dateB, basis)` — signed day
count from `a` to `b` under the basis convention, positive when `b` is
later.  Basis 0 is the US (NASD) 30/360 rule, basis 4 the European 30/360
rule, and the actual bases 1, 2, 3 count real calendar days. -/
def daysBetween (a b : CDate) (basis : Int) : Int :=
  if basis = 0 then
    let d1 : Int := if a.day = 31 then 30 else a.day
    let d2 : Int := if b.day = 31 ∧ 30 ≤ d1 then 30 else b.day
    360 * (b.year - a.year) + 30 * ((b.month.val : Int) - (a.month.val : Int)) + (d2 - d1)
  else if basis = 4 then
    360 * (b.year - a.year) + 30 * ((b.month.val : Int) - (a.month.val : Int)) +
      (min b.day 30 - min a.day 30)
  else
    rataDie b - rataDie a

/-- Modelled from the spec: `nominalDaysInYear(basis)` — 360 for the 30/360
and Actual/360 bases, 365 for Actual/365, and the actual day count of the
date's year for Actual/Actual.  coupon.js passes `0` (the epoch) as the
date. -/
def getDaysInYear (d : CDate) (basis : Int) : Int :=
  if basis = 1 then (if isLeapYear d.year then 366 else 365)
  else if basis = 3 then 365
  else 360

/-- The JavaScript date `new Date(0)`: 1970-01-01. -/
def epochDate : CDate :=
  ⟨1970, 0, 1⟩

/-- `Math.round(x / f)` for integers `x` and positive `f`: half rounds
toward positive infinity. -/
def jsRoundDiv (x f : Int) : Int :=
  (2 * x + f).fdiv (2 * f)

/-- The error kinds raised by `argsValidator` (spec §7); the two
`TypeError`s for a malformed settlement and a malformed maturity are
distinguished by their messages in the source. -/
inductive CouponError where
  | missingArgument
  | invalidSettlementDate
  | invalidMaturityDate
  | invalidFrequency
  | invalidBasis
  | invalidDateRange
deriving DecidableEq, Repr

/-- `validDate` of coupon.js: the value is a `Date` holding a real date
(`x instanceof Date && !isNaN(x.getDate())`).  A present argument is
modelled as `some v` with `v : Option CDate`; `v = none` is a present value
that is not a valid date. -/
def validDate (x : Option CDate) : Bool :=
  x.isSome

/-- `validFrequency` of coupon.js: `[1, 2, 4].includes(x)`. -/
def validFrequency (x : Int) : Prop :=
  x = 1 ∨ x = 2 ∨ x = 4

instance (x : Int) : Decidable (validFrequency x) := by
  unfold validFrequency; infer_instance

/-- `validBasis` of coupon.js: `[0, 1, 2, 3, 4].includes(x)`. -/
def validBasis (x : Int) : Prop :=
  x = 0 ∨ x = 1 ∨ x = 2 ∨ x = 3 ∨ x = 4

instance (x : Int) : Decidable (validBasis x) := by
  unfold validBasis; infer_instance

/-- `argsValidator` of coupon.js.  An absent (`undefined`) argument is
`none`; a present argument that is not a valid date is `some none`.  The
`basis` parameter has already received its default `0` when omitted, so it
is always a number.  The first three match arms are `hasRequiredArgs`
(modelled from the spec: true iff every value is present), the next two the
`validDate` checks; the range check calls `daysBetween` without a basis,
which the spec fixes to the basis-0 count. -/
def argsValidator (settlement maturity : Option (Option CDate))
    (frequency : Option Int) (basis : Int) : Except CouponError Bool :=
  match settlement, maturity, frequency with
  | none, _, _ => .error .missingArgument
  | _, none, _ => .error .missingArgument
  | _, _, none => .error .missingArgument
  | some none, some _, some _ => .error .invalidSettlementDate
  | some (some _), some none, some _ => .error .invalidMaturityDate
  | some (some sd), some (some md), some fr =>
    if ¬ validFrequency fr then .error .invalidFrequency
    else if ¬ validBasis basis then .error .invalidBasis
    else if daysBetween sd md 0 ≤ 0 then .error .invalidDateRange
    else .ok true

/-- The backward stepping loop of `couppcd`:
`while (+settlement < +d) d = addDate(d, 0, -12 / frequency, 0, eom);`,
with explicit fuel (the fuel chosen in `couppcd` is proven sufficient for
every validated input). -/
def pcdLoopF (settlement : CDate) (step : Int) (eom : Bool) : Nat → CDate → CDate
  | 0, d => d
  | fuel + 1, d =>
    if CDate.lt settlement d then
      pcdLoopF settlement step eom fuel (addDate d 0 (-step) eom)
    else d

/-- Number of iterations the backward loop of `couppcd` executes. -/
def pcdCountF (settlement : CDate) (step : Int) (eom : Bool) : Nat → CDate → Nat
  | 0, _ => 0
  | fuel + 1, d =>
    if CDate.lt settlement d then
      pcdCountF settlement step eom fuel (addDate d 0 (-step) eom) + 1
    else 0

/-- The forward stepping loop of `coupncd`:
`while (+settlement >= +d) d = addDate(d, 0, 12 / frequency, 0);`
(no end-of-month flag is passed there), with explicit fuel. -/
def ncdLoopF (settlement : CDate) (step : Int) : Nat → CDate → CDate
  | 0, d => d
  | fuel + 1, d =>
    if ¬ CDate.lt settlement d then
      ncdLoopF settlement step fuel (addDate d 0 step false)
    else d

/-- Fuel sufficient for the backward loop started at `d`. -/
def pcdFuel (settlement d : CDate) : Nat :=
  (monthIndex d - monthIndex settlement + 1).toNat + 1

/-- Fuel sufficient for the forward loop started at `d`. -/
def ncdFuel (settlement d : CDate) : Nat :=
  (monthIndex settlement - monthIndex d + 1).toNat + 1

/-- The computation `couppcd` performs after validation succeeded.  The
`basis` argument is received but takes no part (it is only validated). -/
def couppcdCore (settlement maturity : CDate) (frequency : Int) : CDate :=
  let eom := isEOM maturity
  let step : Int := 12 / frequency
  pcdLoopF settlement step eom (pcdFuel settlement maturity) maturity

/-- `couppcd(settlement, maturity, frequency, basis = 0)` of coupon.js.
`12 / frequency` is exact integer division for every validated frequency. -/
def couppcd (settlement maturity : CDate) (frequency basis : Int) :
    Except CouponError CDate := do
  let _ ← argsValidator (some (some settlement)) (some (some maturity))
    (some frequency) basis
  pure (couppcdCore settlement maturity frequency)

/-- The candidate start date of `coupncd` after the two windowing
adjustments (steps before the forward loop):
`let d = new Date(settlement.getUTCFullYear(), m1 - 1, d1)`, the overflow
correction `if (m1 !== d.getUTCMonth()) d.setUTCDate(0)`, and the backward
year step `if (+settlement < +d) d = addDate(d, -1, 0, 0, eom)`. -/
def ncdStart (settlement maturity : CDate) : CDate :=
  let m1 : Nat := (splitDate maturity).2.1
  let d1 : Int := (splitDate maturity).2.2
  let eom := isEOM maturity
  let c0 : CDate := mkDate settlement.year ((m1 : Int) - 1) d1
  let c1 : CDate := if (m1 : Int) ≠ c0.month.val then setDate c0 0 else c0
  if CDate.lt settlement c1 then addDate c1 (-1) 0 eom else c1

/-- The computation `coupncd` performs after validation succeeded: the
forward stepping loop from `ncdStart`, then the day correction
`let month = d.getUTCMonth(); d.setUTCDate(Math.max(d.getUTCDate(), +d1));
if (month !== d.getUTCMonth()) d.setUTCDate(0);`. -/
def coupncdCore (settlement maturity : CDate) (frequency : Int) : CDate :=
  let d1 : Int := (splitDate maturity).2.2
  let step : Int := 12 / frequency
  let c2 : CDate := ncdStart settlement maturity
  let c3 : CDate := ncdLoopF settlement step (ncdFuel settlement c2) c2
  let month : Fin 12 := c3.month
  let c4 : CDate := setDate c3 (max c3.day d1)
  if month ≠ c4.month then setDate c4 0 else c4

/-- `coupncd(settlement, maturity, frequency, basis = 0)` of coupon.js. -/
def coupncd (settlement maturity : CDate) (frequency basis : Int) :
    Except CouponError CDate := do
  let _ ← argsValidator (some (some settlement)) (some (some maturity))
    (some frequency) basis
  pure (coupncdCore settlement maturity frequency)

/-- `coupdaybs(settlement, maturity, frequency, basis = 0)` of coupon.js. -/
def coupdaybs (settlement maturity : CDate) (frequency basis : Int) :
    Except CouponError Int := do
  let _ ← argsValidator (some (some settlement)) (some (some maturity))
    (some frequency) basis
  let pcd ← couppcd settlement maturity frequency basis
  pure (daysBetween pcd settlement basis)

/-- `coupdays(settlement, maturity, frequency, basis = 0)` of coupon.js;
the non-Actual/Actual branch is
`Math.round(getDaysInYear(0, basis) / frequency)`. -/
def coupdays (settlement maturity : CDate) (frequency basis : Int) :
    Except CouponError Int := do
  let _ ← argsValidator (some (some settlement)) (some (some maturity))
    (some frequency) basis
  if basis = 1 then
    let pcd ← couppcd settlement maturity frequency basis
    let ncd ← coupncd settlement maturity frequency basis
    pure (daysBetween pcd ncd basis)
  else
    pure (jsRoundDiv (getDaysInYear epochDate basis) frequency)

/-- `coupdaysnc(settlement, maturity, frequency, basis = 0)` of coupon.js;
for basis 0 it is computed as `coupdays(...) - coupdaybs(...)`. -/
def coupdaysnc (settlement maturity : CDate) (frequency basis : Int) :
    Except CouponError Int := do
  let _ ← argsValidator (some (some settlement)) (some (some maturity))
    (some frequency) basis
  if basis = 0 then
    let a ← coupdays settlement maturity frequency basis
    let b ← coupdaybs settlement maturity frequency basis
    pure (a - b)
  else
    let ncd ← coupncd settlement maturity frequency basis
    pure (daysBetween settlement ncd basis)

/-- `coupnum(settlement, maturity, frequency, basis = 0)` of coupon.js; the
final `(months * frequency) / 12` is JavaScript number division, modelled as
exact rational division. -/
def coupnum (settlement maturity : CDate) (frequency basis : Int) :
    Except CouponError ℚ := do
  let _ ← argsValidator (some (some settlement)) (some (some maturity))
    (some frequency) basis
  let pcd ← couppcd settlement maturity frequency basis
  let y : Int := (splitDate pcd).1
  let mo : Nat := (splitDate pcd).2.1
  let y1 : Int := (splitDate maturity).1
  let m1 : Nat := (splitDate maturity).2.1
  let months : Int := (y1 - y) * 12 + ((m1 : Int) - (mo : Int))
  pure (((months * frequency : Int) : ℚ) / 12)

/-- Validator behaviour as the spec words it (spec-side definition for the
refinement claim C5): the ordered checklist presence → settlement date →
maturity date → frequency → basis → range; each entry pairs the passing
condition with the error raised when it is the first to fail.  Entries whose
arguments are unavailable (because an earlier check already failed) default
to `true`. -/
def validatorChecklist (settlement maturity : Option (Option CDate))
    (frequency : Option Int) (basis : Int) : List (Bool × CouponError) :=
  [ (settlement.isSome && maturity.isSome && frequency.isSome, .missingArgument),
    (validDate (settlement.getD none), .invalidSettlementDate),
    (validDate (maturity.getD none), .invalidMaturityDate),
    (decide (validFrequency (frequency.getD 0)), .invalidFrequency),
    (decide (validBasis basis), .invalidBasis),
    (match settlement, maturity with
      | some (some sd), some (some md) => decide (0 < daysBetween sd md 0)
      | _, _ => true,
     .invalidDateRange) ]

/-- First applicable error of an ordered checklist, `true` when every check
passes (spec-side definition for the refinement claim C5). -/
def firstFailure : List (Bool × CouponError) → Except CouponError Bool
  | [] => .ok true
  | (ok, e) :: rest => if ok then firstFailure rest else .error e

instance : DecidableEq (Except CouponError CDate) := fun a b =>
  match a, b with
  | .ok x, .ok y =>
    if h : x = y then .isTrue (by rw [h]) else .isFalse (by intro hh; cases hh; exact h rfl)
  | .error x, .error y =>
    if h : x = y then .isTrue (by rw [h]) else .isFalse (by intro hh; cases hh; exact h rfl)
  | .ok _, .error _ => .isFalse (by intro hh; cases hh)
  | .error _, .ok _ => .isFalse (by intro hh; cases hh)

/-! ## Arithmetic and order lemmas -/

theorem daysInMonth_bounds (y : Int) (m : Fin 12) :
    28 ≤ daysInMonth y m ∧ daysInMonth y m ≤ 31 := by
  unfold daysInMonth
  split_ifs <;> omega

theorem monthFin_intVal (mi : Int) : ((monthFin mi).val : Int) = mi.fmod 12 := by
  unfold monthFin
  simp only []
  exact Int.toNat_of_nonneg (Int.fmod_nonneg' mi (by norm_num))

theorem addDate_monthIndex (d : CDate) (ys ms : Int) (e : Bool) :
    monthIndex (addDate d ys ms e) = monthIndex d + 12 * ys + ms := by
  have h := Int.fdiv_add_fmod (12 * d.year + d.month.val + 12 * ys + ms) 12
  have h2 := monthFin_intVal (12 * d.year + d.month.val + 12 * ys + ms)
  unfold addDate monthIndex
  split <;> simp only [] <;> omega

theorem lt_monthIndex_mono {a b : CDate} (h : CDate.lt a b) :
    monthIndex a ≤ monthIndex b := by
  have ha := a.month.isLt
  have hb := b.month.isLt
  unfold CDate.lt at h
  unfold monthIndex
  omega

theorem not_lt_monthIndex {a b : CDate} (h : ¬ CDate.lt a b) :
    monthIndex b ≤ monthIndex a := by
  have ha := a.month.isLt
  have hb := b.month.isLt
  unfold CDate.lt at h
  unfold monthIndex
  omega

theorem le_of_not_lt {a b : CDate} (h : ¬ CDate.lt a b) : CDate.le b a := by
  obtain ⟨ya, ma, da⟩ := a
  obtain ⟨yb, mb, db⟩ := b
  have hma := ma.isLt
  have hmb := mb.isLt
  simp only [CDate.lt, CDate.le, CDate.mk.injEq, Fin.ext_iff] at h ⊢
  omega

/-! ## Well-formedness preservation -/

theorem addDate_Wf {d : CDate} (hd : d.Wf) (ys ms : Int) (e : Bool) :
    (addDate d ys ms e).Wf := by
  obtain ⟨h1, h2⟩ := hd
  have hb := daysInMonth_bounds ((12 * d.year + d.month.val + 12 * ys + ms).fdiv 12)
    (monthFin (12 * d.year + d.month.val + 12 * ys + ms))
  unfold addDate CDate.Wf
  split <;> simp only [] <;> omega

theorem dayNorm_Wf (y : Int) (m : Fin 12) {day : Int} (h0 : 0 ≤ day) (h31 : day ≤ 31) :
    (dayNorm y m day).Wf := by
  have hp := daysInMonth_bounds (prevMonth y m).1 (prevMonth y m).2
  have hc := daysInMonth_bounds y m
  have hn := daysInMonth_bounds (nextMonth y m).1 (nextMonth y m).2
  unfold dayNorm CDate.Wf
  split_ifs <;> simp only [] <;> omega

theorem mkDate_Wf (y mi : Int) {day : Int} (h1 : 1 ≤ day) (h31 : day ≤ 31) :
    (mkDate y mi day).Wf := by
  unfold mkDate
  exact dayNorm_Wf _ _ (by omega) h31

theorem setDate_Wf (d : CDate) {n : Int} (h0 : 0 ≤ n) (h31 : n ≤ 31) :
    (setDate d n).Wf :=
  dayNorm_Wf _ _ h0 h31

/-! ## End-of-month preservation -/

theorem isEOM_addDate {d : CDate} (h : isEOM d = true) (ys ms : Int) :
    isEOM (addDate d ys ms true) = true := by
  unfold addDate
  rw [show (true && isEOM d) = true by rw [h, Bool.true_and]]
  simp [isEOM]

/-! ## The backward loop of couppcd -/

theorem pcdLoopF_exit (s : CDate) {step : Int} (hstep : 0 < step) (eom : Bool) :
    ∀ (fuel : Nat) (d : CDate),
      (monthIndex d - monthIndex s + 1).toNat + 1 ≤ fuel →
      ¬ CDate.lt s (pcdLoopF s step eom fuel d) := by
  intro fuel
  induction fuel with
  | zero => intro d h; omega
  | succ n ih =>
    intro d h
    unfold pcdLoopF
    split
    case isTrue hlt =>
      apply ih
      have h1 := lt_monthIndex_mono hlt
      have h2 := addDate_monthIndex d 0 (-step) eom
      omega
    case isFalse hlt => exact hlt

theorem pcdLoopF_Wf (s : CDate) (step : Int) (eom : Bool) :
    ∀ (fuel : Nat) {d : CDate}, d.Wf → (pcdLoopF s step eom fuel d).Wf := by
  intro fuel
  induction fuel with
  | zero => intro d h; exact h
  | succ n ih =>
    intro d h
    unfold pcdLoopF
    split
    · exact ih (addDate_Wf h 0 (-step) eom)
    · exact h

theorem pcdLoopF_isEOM (s : CDate) (step : Int) :
    ∀ (fuel : Nat) {d : CDate}, isEOM d = true →
      isEOM (pcdLoopF s step true fuel d) = true := by
  intro fuel
  induction fuel with
  | zero => intro d h; exact h
  | succ n ih =>
    intro d h
    unfold pcdLoopF
    split
    · exact ih (isEOM_addDate h 0 (-step))
    · exact h

theorem pcdLoopF_stable {s : CDate} {d : CDate} (h : ¬ CDate.lt s d)
    (step : Int) (eom : Bool) (fuel : Nat) :
    pcdLoopF s step eom fuel d = d := by
  cases fuel with
  | zero => rfl
  | succ n => simp [pcdLoopF, h]

theorem pcdLoopF_add (s : CDate) (step : Int) (eom : Bool) :
    ∀ (a b : Nat) (d : CDate),
      pcdLoopF s step eom (a + b) d = pcdLoopF s step eom b (pcdLoopF s step eom a d) := by
  intro a
  induction a with
  | zero => intro b d; rw [Nat.zero_add]; rfl
  | succ n ih =>
    intro b d
    rw [Nat.succ_add]
    by_cases hlt : CDate.lt s d
    · simp only [pcdLoopF, if_pos hlt]
      exact ih b (addDate d 0 (-step) eom)
    · simp only [pcdLoopF, if_neg hlt]
      exact (pcdLoopF_stable hlt step eom b).symm

theorem pcdLoopF_monthIndex (s : CDate) (step : Int) (eom : Bool) :
    ∀ (fuel : Nat) (d : CDate),
      monthIndex (pcdLoopF s step eom fuel d) =
        monthIndex d - step * (pcdCountF s step eom fuel d) := by
  intro fuel
  induction fuel with
  | zero => intro d; simp [pcdLoopF, pcdCountF]
  | succ n ih =>
    intro d
    by_cases hlt : CDate.lt s d
    · simp only [pcdLoopF, pcdCountF, if_pos hlt]
      rw [ih, addDate_monthIndex]
      push_cast
      ring
    · simp only [pcdLoopF, pcdCountF, if_neg hlt]
      simp

/-! ## The forward loop of coupncd -/

theorem ncdLoopF_exit (s : CDate) {step : Int} (hstep : 0 < step) :
    ∀ (fuel : Nat) (d : CDate),
      (monthIndex s - monthIndex d + 1).toNat + 1 ≤ fuel →
      CDate.lt s (ncdLoopF s step fuel d) := by
  intro fuel
  induction fuel with
  | zero => intro d h; omega
  | succ n ih =>
    intro d h
    unfold ncdLoopF
    split
    case isTrue hge =>
      apply ih
      have h1 := not_lt_monthIndex hge
      have h2 := addDate_monthIndex d 0 step false
      omega
    case isFalse hge => exact not_not.mp hge

theorem ncdLoopF_Wf (s : CDate) (step : Int) :
    ∀ (fuel : Nat) {d : CDate}, d.Wf → (ncdLoopF s step fuel d).Wf := by
  intro fuel
  induction fuel with
  | zero => intro d h; exact h
  | succ n ih =>
    intro d h
    unfold ncdLoopF
    split
    · exact ih (addDate_Wf h 0 step false)
    · exact h

theorem ncdLoopF_stable {s : CDate} {d : CDate} (h : CDate.lt s d)
    (step : Int) (fuel : Nat) :
    ncdLoopF s step fuel d = d := by
  cases fuel with
  | zero => rfl
  | succ n => simp [ncdLoopF, h]

theorem ncdLoopF_add (s : CDate) (step : Int) :
    ∀ (a b : Nat) (d : CDate),
      ncdLoopF s step (a + b) d = ncdLoopF s step b (ncdLoopF s step a d) := by
  intro a
  induction a with
  | zero => intro b d; rw [Nat.zero_add]; rfl
  | succ n ih =>
    intro b d
    rw [Nat.succ_add]
    by_cases hge : CDate.lt s d
    · simp only [ncdLoopF, if_neg (not_not.mpr hge)]
      exact (ncdLoopF_stable hge step b).symm
    · simp only [ncdLoopF, if_pos hge]
      exact ih b (addDate d 0 step false)

/-! ## The US NASD 30/360 day count and the validator -/

theorem daysBetween_nasd_nonpos {a b : CDate} (ha : a.Wf) (hb : b.Wf)
    (h : ¬ CDate.lt a b) : daysBetween a b 0 ≤ 0 := by
  obtain ⟨ha1, ha2⟩ := ha
  obtain ⟨hb1, hb2⟩ := hb
  have hda := daysInMonth_bounds a.year a.month
  have hdb := daysInMonth_bounds b.year b.month
  have hma := a.month.isLt
  have hmb := b.month.isLt
  unfold CDate.lt at h
  unfold daysBetween
  norm_num
  split_ifs <;> omega

theorem daysBetween_nasd_pos {a b : CDate} (ha : a.Wf) (hb : b.Wf)
    (h : 0 < daysBetween a b 0) : CDate.lt a b := by
  by_contra hc
  have := daysBetween_nasd_nonpos ha hb hc
  omega

theorem argsValidator_ok {s m : CDate} {f basis : Int} (hf : validFrequency f)
    (hb : validBasis basis) (hc : 0 < daysBetween s m 0) :
    argsValidator (some (some s)) (some (some m)) (some f) basis = .ok true := by
  show (if ¬ validFrequency f then (Except.error CouponError.invalidFrequency : Except CouponError Bool)
    else if ¬ validBasis basis then Except.error CouponError.invalidBasis
    else if daysBetween s m 0 ≤ 0 then Except.error CouponError.invalidDateRange
    else Except.ok true) = Except.ok true
  rw [if_neg (not_not.mpr hf), if_neg (not_not.mpr hb), if_neg (by omega)]

theorem argsValidator_range {s m : CDate} {f basis : Int} (hf : validFrequency f)
    (hb : validBasis basis) (hc : daysBetween s m 0 ≤ 0) :
    argsValidator (some (some s)) (some (some m)) (some f) basis =
      .error .invalidDateRange := by
  show (if ¬ validFrequency f then (Except.error CouponError.invalidFrequency : Except CouponError Bool)
    else if ¬ validBasis basis then Except.error CouponError.invalidBasis
    else if daysBetween s m 0 ≤ 0 then Except.error CouponError.invalidDateRange
    else Except.ok true) = Except.error CouponError.invalidDateRange
  rw [if_neg (not_not.mpr hf), if_neg (not_not.mpr hb), if_pos hc]

theorem step_pos {f : Int} (hf : validFrequency f) : 0 < 12 / f := by
  rcases hf with h | h | h <;> subst h <;> decide

/-! ## The public date functions on validated inputs -/

theorem couppcd_ok {s m : CDate} {f basis : Int} (hf : validFrequency f)
    (hb : validBasis basis) (hc : 0 < daysBetween s m 0) :
    couppcd s m f basis = .ok (couppcdCore s m f) := by
  unfold couppcd
  rw [argsValidator_ok hf hb hc]
  rfl

theorem coupncd_ok {s m : CDate} {f basis : Int} (hf : validFrequency f)
    (hb : validBasis basis) (hc : 0 < daysBetween s m 0) :
    coupncd s m f basis = .ok (coupncdCore s m f) := by
  unfold coupncd
  rw [argsValidator_ok hf hb hc]
  rfl

theorem couppcdCore_le {s m : CDate} {f : Int} (hf : validFrequency f) :
    CDate.le (couppcdCore s m f) s := by
  unfold couppcdCore pcdFuel
  exact le_of_not_lt (pcdLoopF_exit s (step_pos hf) (isEOM m) _ m (le_refl _))

theorem couppcdCore_isEOM {s m : CDate} {f : Int} (hm : isEOM m = true) :
    isEOM (couppcdCore s m f) = true := by
  unfold couppcdCore
  rw [hm]
  exact pcdLoopF_isEOM s (12 / f) _ hm

/-! ## The day correction at the end of coupncd -/

theorem prevMonth_nextMonth (y : Int) (m : Fin 12) :
    prevMonth (nextMonth y m).1 (nextMonth y m).2 = (y, m) := by
  have hm := m.isLt
  by_cases h : m.val = 11 <;>
    (simp [nextMonth, prevMonth, h, Prod.ext_iff, Fin.ext_iff]; try omega)

theorem dayCorrection_lt {s d : CDate} (hd : d.Wf) {n : Int} (hn : d.day ≤ n)
    (hlt : CDate.lt s d) :
    CDate.lt s (if d.month ≠ (setDate d n).month then setDate (setDate d n) 0
                else setDate d n) := by
  obtain ⟨h1, h2⟩ := hd
  have hb := daysInMonth_bounds d.year d.month
  by_cases hc : n ≤ daysInMonth d.year d.month
  · have hsd : setDate d n = ⟨d.year, d.month, n⟩ := by
      unfold setDate dayNorm
      rw [if_neg (by omega), if_pos hc]
    rw [hsd]
    rw [if_neg (by simp)]
    simp only [CDate.lt] at hlt ⊢
    omega
  · have hsd : setDate d n =
        ⟨(nextMonth d.year d.month).1, (nextMonth d.year d.month).2,
          n - daysInMonth d.year d.month⟩ := by
      unfold setDate dayNorm
      rw [if_neg (by omega), if_neg (by omega)]
    rw [hsd]
    have hne : d.month ≠ (nextMonth d.year d.month).2 := by
      have hm := d.month.isLt
      unfold nextMonth
      split_ifs with h11 <;> (simp [Fin.ext_iff]; try omega)
    rw [if_pos hne]
    have hs0 : setDate (⟨(nextMonth d.year d.month).1, (nextMonth d.year d.month).2,
        n - daysInMonth d.year d.month⟩ : CDate) 0 =
        ⟨d.year, d.month, daysInMonth d.year d.month⟩ := by
      unfold setDate dayNorm
      rw [if_pos (by omega)]
      have hpn := prevMonth_nextMonth d.year d.month
      simp [hpn]
    rw [hs0]
    simp only [CDate.lt] at hlt ⊢
    omega

theorem ncdStart_Wf (s : CDate) {m : CDate} (hm : m.Wf) : (ncdStart s m).Wf := by
  have hb := daysInMonth_bounds m.year m.month
  obtain ⟨h1, h2⟩ := hm
  have hc0 : (mkDate s.year ((m.month.val : Int) - 1) m.day).Wf :=
    mkDate_Wf _ _ h1 (by omega)
  have hcs : (setDate (mkDate s.year ((m.month.val : Int) - 1) m.day) 0).Wf :=
    setDate_Wf _ (by norm_num) (by norm_num)
  simp only [ncdStart, splitDate]
  split_ifs
  · exact addDate_Wf hcs (-1) 0 (isEOM m)
  · exact hcs
  · exact addDate_Wf hc0 (-1) 0 (isEOM m)
  · exact hc0

theorem coupncdCore_lt (s : CDate) {m : CDate} {f : Int} (hm : m.Wf)
    (hf : validFrequency f) : CDate.lt s (coupncdCore s m f) := by
  have hstep := step_pos hf
  have hst : (ncdStart s m).Wf := ncdStart_Wf s hm
  have hc3lt : CDate.lt s
      (ncdLoopF s (12 / f) (ncdFuel s (ncdStart s m)) (ncdStart s m)) :=
    ncdLoopF_exit s hstep _ _ (by unfold ncdFuel; exact le_refl _)
  have hc3wf : (ncdLoopF s (12 / f) (ncdFuel s (ncdStart s m)) (ncdStart s m)).Wf :=
    ncdLoopF_Wf s _ _ hst
  have hbc3 := daysInMonth_bounds
    (ncdLoopF s (12 / f) (ncdFuel s (ncdStart s m)) (ncdStart s m)).year
    (ncdLoopF s (12 / f) (ncdFuel s (ncdStart s m)) (ncdStart s m)).month
  have hbm := daysInMonth_bounds m.year m.month
  obtain ⟨hw1, hw2⟩ := hc3wf
  obtain ⟨hm1, hm2⟩ := hm
  simp only [coupncdCore, splitDate]
  exact dayCorrection_lt ⟨hw1, hw2⟩ (le_max_left _ _) hc3lt

/-! ## Ok-value lemmas for the day-count functions -/

theorem coupdaybs_ok {s m : CDate} {f basis : Int} (hf : validFrequency f)
    (hb : validBasis basis) (hc : 0 < daysBetween s m 0) :
    coupdaybs s m f basis = .ok (daysBetween (couppcdCore s m f) s basis) := by
  unfold coupdaybs
  rw [argsValidator_ok hf hb hc, couppcd_ok hf hb hc]
  rfl

theorem coupdays_okOther {s m : CDate} {f basis : Int} (hf : validFrequency f)
    (hb : validBasis basis) (hc : 0 < daysBetween s m 0) (hne : basis ≠ 1) :
    coupdays s m f basis = .ok (jsRoundDiv (getDaysInYear epochDate basis) f) := by
  unfold coupdays
  rw [argsValidator_ok hf hb hc, if_neg hne]
  rfl

theorem coupdays_okActual {s m : CDate} {f : Int} (hf : validFrequency f)
    (hc : 0 < daysBetween s m 0) :
    coupdays s m f 1 = .ok (daysBetween (couppcdCore s m f) (coupncdCore s m f) 1) := by
  have hb : validBasis 1 := by decide
  unfold coupdays
  rw [argsValidator_ok hf hb hc, if_pos rfl, couppcd_ok hf hb hc, coupncd_ok hf hb hc]
  rfl

theorem coupdaysnc_okNasd {s m : CDate} {f : Int} (hf : validFrequency f)
    (hc : 0 < daysBetween s m 0) :
    coupdaysnc s m f 0 = .ok (jsRoundDiv (getDaysInYear epochDate 0) f -
      daysBetween (couppcdCore s m f) s 0) := by
  have hb : validBasis 0 := by decide
  unfold coupdaysnc
  rw [argsValidator_ok hf hb hc, if_pos rfl, coupdays_okOther hf hb hc (by norm_num),
    coupdaybs_ok hf hb hc]
  rfl

/-! ## Claim theorems -/

/-- C1: for every valid input (settlement strictly before maturity in the
sense of the validator's basis-0 day count, frequency in 1/2/4, basis in
0..4), `couppcd` returns a date less than or equal to settlement and
`coupncd` returns a date strictly greater than settlement. -/
theorem claim1_period_brackets_settlement (s m : CDate) (f b : Int)
    (_hs : s.Wf) (hm : m.Wf) (hf : validFrequency f) (hb : validBasis b)
    (hc : 0 < daysBetween s m 0) :
    couppcd s m f b = .ok (couppcdCore s m f) ∧
    CDate.le (couppcdCore s m f) s ∧
    coupncd s m f b = .ok (coupncdCore s m f) ∧
    CDate.lt s (coupncdCore s m f) :=
  ⟨couppcd_ok hf hb hc, couppcdCore_le hf, coupncd_ok hf hb hc, coupncdCore_lt s hm hf⟩

theorem claim1_witness :
    ((⟨2023, 0, 15⟩ : CDate).Wf ∧ (⟨2025, 6, 31⟩ : CDate).Wf ∧ validFrequency 2 ∧
      validBasis 0 ∧ 0 < daysBetween ⟨2023, 0, 15⟩ ⟨2025, 6, 31⟩ 0) ∧
    (couppcd ⟨2023, 0, 15⟩ ⟨2025, 6, 31⟩ 2 0 =
        .ok (couppcdCore ⟨2023, 0, 15⟩ ⟨2025, 6, 31⟩ 2) ∧
      CDate.le (couppcdCore ⟨2023, 0, 15⟩ ⟨2025, 6, 31⟩ 2) ⟨2023, 0, 15⟩ ∧
      coupncd ⟨2023, 0, 15⟩ ⟨2025, 6, 31⟩ 2 0 =
        .ok (coupncdCore ⟨2023, 0, 15⟩ ⟨2025, 6, 31⟩ 2) ∧
      CDate.lt ⟨2023, 0, 15⟩ (coupncdCore ⟨2023, 0, 15⟩ ⟨2025, 6, 31⟩ 2)) :=
  ⟨⟨by decide, by decide, by decide, by decide, by decide⟩,
    claim1_period_brackets_settlement _ _ _ _ (by decide) (by decide) (by decide)
      (by decide) (by decide)⟩

/-- C2: for every valid input with basis 0, `coupdaybs + coupdaysnc =
coupdays`; `coupdaysnc` is computed as the subtraction `coupdays -
coupdaybs`, so the identity holds by construction. -/
theorem claim2_day_count_additivity (s m : CDate) (f : Int) (hf : validFrequency f)
    (hc : 0 < daysBetween s m 0) :
    coupdaybs s m f 0 = .ok (daysBetween (couppcdCore s m f) s 0) ∧
    coupdays s m f 0 = .ok (jsRoundDiv (getDaysInYear epochDate 0) f) ∧
    coupdaysnc s m f 0 = .ok (jsRoundDiv (getDaysInYear epochDate 0) f -
      daysBetween (couppcdCore s m f) s 0) ∧
    daysBetween (couppcdCore s m f) s 0 +
      (jsRoundDiv (getDaysInYear epochDate 0) f - daysBetween (couppcdCore s m f) s 0) =
      jsRoundDiv (getDaysInYear epochDate 0) f := by
  have hb : validBasis 0 := by decide
  exact ⟨coupdaybs_ok hf hb hc, coupdays_okOther hf hb hc (by norm_num),
    coupdaysnc_okNasd hf hc, by ring⟩

theorem claim2_witness :
    (validFrequency 2 ∧ 0 < daysBetween ⟨2023, 0, 15⟩ ⟨2025, 6, 31⟩ 0) ∧
    (coupdaybs ⟨2023, 0, 15⟩ ⟨2025, 6, 31⟩ 2 0 =
        .ok (daysBetween (couppcdCore ⟨2023, 0, 15⟩ ⟨2025, 6, 31⟩ 2) ⟨2023, 0, 15⟩ 0) ∧
      coupdays ⟨2023, 0, 15⟩ ⟨2025, 6, 31⟩ 2 0 =
        .ok (jsRoundDiv (getDaysInYear epochDate 0) 2) ∧
      coupdaysnc ⟨2023, 0, 15⟩ ⟨2025, 6, 31⟩ 2 0 =
        .ok (jsRoundDiv (getDaysInYear epochDate 0) 2 -
          daysBetween (couppcdCore ⟨2023, 0, 15⟩ ⟨2025, 6, 31⟩ 2) ⟨2023, 0, 15⟩ 0) ∧
      daysBetween (couppcdCore ⟨2023, 0, 15⟩ ⟨2025, 6, 31⟩ 2) ⟨2023, 0, 15⟩ 0 +
        (jsRoundDiv (getDaysInYear epochDate 0) 2 -
          daysBetween (couppcdCore ⟨2023, 0, 15⟩ ⟨2025, 6, 31⟩ 2) ⟨2023, 0, 15⟩ 0) =
        jsRoundDiv (getDaysInYear epochDate 0) 2) :=
  ⟨⟨by decide, by decide⟩,
    claim2_day_count_additivity _ _ _ (by decide) (by decide)⟩

/-- C3 (amended): if maturity is the last day of its month then the date
returned by `couppcd` is the last day of its month; the analogous statement
for `coupncd` is refuted by `claim3_counterexample`. -/
theorem claim3_amended_pcd_eom (s m : CDate) (f b : Int) (_hs : s.Wf) (_hm : m.Wf)
    (hf : validFrequency f) (hb : validBasis b) (hc : 0 < daysBetween s m 0)
    (heom : isEOM m = true) :
    couppcd s m f b = .ok (couppcdCore s m f) ∧
    isEOM (couppcdCore s m f) = true :=
  ⟨couppcd_ok hf hb hc, couppcdCore_isEOM heom⟩

theorem claim3_witness :
    ((⟨2023, 1, 28⟩ : CDate).Wf ∧ (⟨2024, 1, 29⟩ : CDate).Wf ∧ validFrequency 2 ∧
      validBasis 0 ∧ 0 < daysBetween ⟨2023, 1, 28⟩ ⟨2024, 1, 29⟩ 0 ∧
      isEOM (⟨2024, 1, 29⟩ : CDate) = true) ∧
    (couppcd ⟨2023, 1, 28⟩ ⟨2024, 1, 29⟩ 2 0 =
        .ok (couppcdCore ⟨2023, 1, 28⟩ ⟨2024, 1, 29⟩ 2) ∧
      isEOM (couppcdCore ⟨2023, 1, 28⟩ ⟨2024, 1, 29⟩ 2) = true) :=
  ⟨⟨by decide, by decide, by decide, by decide, by decide, by decide⟩,
    claim3_amended_pcd_eom _ _ _ _ (by decide) (by decide) (by decide) (by decide)
      (by decide) (by decide)⟩

/-- C3 (counterexample): a validated input with an end-of-month maturity
(2025-06-30) for which `coupncd` returns 2024-10-30, which is not the last
day of October. -/
theorem claim3_counterexample :
    (⟨2024, 7, 15⟩ : CDate).Wf ∧ (⟨2025, 5, 30⟩ : CDate).Wf ∧
    validFrequency 2 ∧ validBasis 0 ∧
    0 < daysBetween ⟨2024, 7, 15⟩ ⟨2025, 5, 30⟩ 0 ∧
    isEOM (⟨2025, 5, 30⟩ : CDate) = true ∧
    coupncd ⟨2024, 7, 15⟩ ⟨2025, 5, 30⟩ 2 0 = .ok ⟨2024, 9, 30⟩ ∧
    isEOM (⟨2024, 9, 30⟩ : CDate) = false := by
  decide

/-- C4 (counterexample): for settlement 2023-01-15, maturity 2025-07-31,
frequency 2, basis 0, the claimed pair of outputs is wrong: `couppcd` does
not return 2023-01-31 (it returns 2022-07-31, which is also what the loop's
exit condition `couppcd ≤ settlement` forces). -/
theorem claim4_counterexample :
    ¬ (couppcd ⟨2023, 0, 15⟩ ⟨2025, 6, 31⟩ 2 0 = .ok ⟨2023, 0, 31⟩ ∧
       coupncd ⟨2023, 0, 15⟩ ⟨2025, 6, 31⟩ 2 0 = .ok ⟨2023, 6, 31⟩) := by
  decide

/-- C4 (amended): for settlement 2023-01-15, maturity 2025-07-31, frequency
2, basis 0, `couppcd` returns 2022-07-31 and `coupncd` returns
2023-07-31. -/
theorem claim4_amended_values :
    couppcd ⟨2023, 0, 15⟩ ⟨2025, 6, 31⟩ 2 0 = .ok ⟨2022, 6, 31⟩ ∧
    coupncd ⟨2023, 0, 15⟩ ⟨2025, 6, 31⟩ 2 0 = .ok ⟨2023, 6, 31⟩ := by
  decide

/-- C6: for well-formed dates with settlement equal to or later than
maturity and otherwise valid arguments, every public function raises
`InvalidDateRangeError`; the check is decided by the basis-0 day count
being at most 0, regardless of the basis argument passed. -/
theorem claim6_range_error (s m : CDate) (f b : Int) (hs : s.Wf) (hm : m.Wf)
    (hf : validFrequency f) (hb : validBasis b) (hsm : ¬ CDate.lt s m) :
    daysBetween s m 0 ≤ 0 ∧
    coupdaybs s m f b = .error .invalidDateRange ∧
    coupdays s m f b = .error .invalidDateRange ∧
    coupdaysnc s m f b = .error .invalidDateRange ∧
    coupncd s m f b = .error .invalidDateRange ∧
    coupnum s m f b = .error .invalidDateRange ∧
    couppcd s m f b = .error .invalidDateRange := by
  have hle := daysBetween_nasd_nonpos hs hm hsm
  have hv := argsValidator_range hf hb hle
  refine ⟨hle, ?_, ?_, ?_, ?_, ?_, ?_⟩
  · unfold coupdaybs; rw [hv]; rfl
  · unfold coupdays; rw [hv]; rfl
  · unfold coupdaysnc; rw [hv]; rfl
  · unfold coupncd; rw [hv]; rfl
  · unfold coupnum; rw [hv]; rfl
  · unfold couppcd; rw [hv]; rfl

theorem claim6_witness :
    ((⟨2025, 6, 31⟩ : CDate).Wf ∧ (⟨2023, 0, 15⟩ : CDate).Wf ∧ validFrequency 2 ∧
      validBasis 3 ∧ ¬ CDate.lt ⟨2025, 6, 31⟩ ⟨2023, 0, 15⟩) ∧
    (daysBetween ⟨2025, 6, 31⟩ ⟨2023, 0, 15⟩ 0 ≤ 0 ∧
      coupdaybs ⟨2025, 6, 31⟩ ⟨2023, 0, 15⟩ 2 3 = .error .invalidDateRange ∧
      coupdays ⟨2025, 6, 31⟩ ⟨2023, 0, 15⟩ 2 3 = .error .invalidDateRange ∧
      coupdaysnc ⟨2025, 6, 31⟩ ⟨2023, 0, 15⟩ 2 3 = .error .invalidDateRange ∧
      coupncd ⟨2025, 6, 31⟩ ⟨2023, 0, 15⟩ 2 3 = .error .invalidDateRange ∧
      coupnum ⟨2025, 6, 31⟩ ⟨2023, 0, 15⟩ 2 3 = .error .invalidDateRange ∧
      couppcd ⟨2025, 6, 31⟩ ⟨2023, 0, 15⟩ 2 3 = .error .invalidDateRange) :=
  ⟨⟨by decide, by decide, by decide, by decide, by decide⟩,
    claim6_range_error _ _ _ _ (by decide) (by decide) (by decide) (by decide)
      (by decide)⟩

/-- C7: for every valid input, `coupdays` returns `daysBetween(couppcd,
coupncd, basis)` when basis is 1 and the rounded nominal period length
`round(getDaysInYear(0, basis) / frequency)` otherwise; in particular it
returns 180 for frequency 2, basis 0. -/
theorem claim7_coupdays_cases (s m : CDate) (f b : Int) (hf : validFrequency f)
    (hb : validBasis b) (hc : 0 < daysBetween s m 0) :
    (b = 1 → coupdays s m f b =
      .ok (daysBetween (couppcdCore s m f) (coupncdCore s m f) 1)) ∧
    (b ≠ 1 → coupdays s m f b = .ok (jsRoundDiv (getDaysInYear epochDate b) f)) ∧
    (b = 0 → f = 2 → coupdays s m f b = .ok 180) := by
  refine ⟨?_, ?_, ?_⟩
  · intro h1; subst h1; exact coupdays_okActual hf hc
  · intro hne; exact coupdays_okOther hf hb hc hne
  · intro h0 h2
    subst h0; subst h2
    rw [coupdays_okOther hf hb hc (by norm_num)]
    rfl

theorem claim7_witness :
    (validFrequency 2 ∧ validBasis 0 ∧ 0 < daysBetween ⟨2023, 0, 15⟩ ⟨2025, 6, 31⟩ 0) ∧
    (((0 : Int) = 1 → coupdays ⟨2023, 0, 15⟩ ⟨2025, 6, 31⟩ 2 0 =
        .ok (daysBetween (couppcdCore ⟨2023, 0, 15⟩ ⟨2025, 6, 31⟩ 2)
          (coupncdCore ⟨2023, 0, 15⟩ ⟨2025, 6, 31⟩ 2) 1)) ∧
      ((0 : Int) ≠ 1 → coupdays ⟨2023, 0, 15⟩ ⟨2025, 6, 31⟩ 2 0 =
        .ok (jsRoundDiv (getDaysInYear epochDate 0) 2)) ∧
      ((0 : Int) = 0 → (2 : Int) = 2 →
        coupdays ⟨2023, 0, 15⟩ ⟨2025, 6, 31⟩ 2 0 = .ok 180)) :=
  ⟨⟨by decide, by decide, by decide⟩,
    claim7_coupdays_cases _ _ _ _ (by decide) (by decide) (by decide)⟩

/-- C8: on validated inputs both stepping loops stabilise at the fuel the
embedding allots them — giving them any additional fuel does not change the
result — so the loops terminate and both date functions are total. -/
theorem claim8_loops_terminate (s m : CDate) (f b : Int) (k : Nat)
    (hf : validFrequency f) (hb : validBasis b) (hc : 0 < daysBetween s m 0) :
    couppcd s m f b = .ok (couppcdCore s m f) ∧
    coupncd s m f b = .ok (coupncdCore s m f) ∧
    pcdLoopF s (12 / f) (isEOM m) (pcdFuel s m + k) m =
      pcdLoopF s (12 / f) (isEOM m) (pcdFuel s m) m ∧
    ncdLoopF s (12 / f) (ncdFuel s (ncdStart s m) + k) (ncdStart s m) =
      ncdLoopF s (12 / f) (ncdFuel s (ncdStart s m)) (ncdStart s m) := by
  have hstep := step_pos hf
  refine ⟨couppcd_ok hf hb hc, coupncd_ok hf hb hc, ?_, ?_⟩
  · rw [pcdLoopF_add]
    exact pcdLoopF_stable
      (pcdLoopF_exit s hstep (isEOM m) (pcdFuel s m) m (by unfold pcdFuel; exact le_refl _))
      (12 / f) (isEOM m) k
  · rw [ncdLoopF_add]
    exact ncdLoopF_stable
      (ncdLoopF_exit s hstep (ncdFuel s (ncdStart s m)) (ncdStart s m)
        (by unfold ncdFuel; exact le_refl _))
      (12 / f) k

theorem claim8_witness :
    (validFrequency 2 ∧ validBasis 0 ∧ 0 < daysBetween ⟨2023, 0, 15⟩ ⟨2025, 6, 31⟩ 0) ∧
    (couppcd ⟨2023, 0, 15⟩ ⟨2025, 6, 31⟩ 2 0 =
        .ok (couppcdCore ⟨2023, 0, 15⟩ ⟨2025, 6, 31⟩ 2) ∧
      coupncd ⟨2023, 0, 15⟩ ⟨2025, 6, 31⟩ 2 0 =
        .ok (coupncdCore ⟨2023, 0, 15⟩ ⟨2025, 6, 31⟩ 2) ∧
      pcdLoopF ⟨2023, 0, 15⟩ (12 / 2) (isEOM ⟨2025, 6, 31⟩)
          (pcdFuel ⟨2023, 0, 15⟩ ⟨2025, 6, 31⟩ + 5) ⟨2025, 6, 31⟩ =
        pcdLoopF ⟨2023, 0, 15⟩ (12 / 2) (isEOM ⟨2025, 6, 31⟩)
          (pcdFuel ⟨2023, 0, 15⟩ ⟨2025, 6, 31⟩) ⟨2025, 6, 31⟩ ∧
      ncdLoopF ⟨2023, 0, 15⟩ (12 / 2)
          (ncdFuel ⟨2023, 0, 15⟩ (ncdStart ⟨2023, 0, 15⟩ ⟨2025, 6, 31⟩) + 5)
          (ncdStart ⟨2023, 0, 15⟩ ⟨2025, 6, 31⟩) =
        ncdLoopF ⟨2023, 0, 15⟩ (12 / 2)
          (ncdFuel ⟨2023, 0, 15⟩ (ncdStart ⟨2023, 0, 15⟩ ⟨2025, 6, 31⟩))
          (ncdStart ⟨2023, 0, 15⟩ ⟨2025, 6, 31⟩)) :=
  ⟨⟨by decide, by decide, by decide⟩,
    claim8_loops_terminate _ _ _ _ 5 (by decide) (by decide) (by decide)⟩

/-- C9: the basis argument of `couppcd` and `coupncd` takes part only in
validation; any two valid bases produce identical coupon dates. -/
theorem claim9_basis_independent (s m : CDate) (f b1 b2 : Int)
    (hf : validFrequency f) (hb1 : validBasis b1) (hb2 : validBasis b2)
    (hc : 0 < daysBetween s m 0) :
    couppcd s m f b1 = couppcd s m f b2 ∧
    coupncd s m f b1 = coupncd s m f b2 := by
  rw [couppcd_ok hf hb1 hc, couppcd_ok hf hb2 hc,
    coupncd_ok hf hb1 hc, coupncd_ok hf hb2 hc]
  exact ⟨rfl, rfl⟩

theorem claim9_witness :
    (validFrequency 2 ∧ validBasis 0 ∧ validBasis 3 ∧
      0 < daysBetween ⟨2023, 0, 15⟩ ⟨2025, 6, 31⟩ 0) ∧
    (couppcd ⟨2023, 0, 15⟩ ⟨2025, 6, 31⟩ 2 0 = couppcd ⟨2023, 0, 15⟩ ⟨2025, 6, 31⟩ 2 3 ∧
      coupncd ⟨2023, 0, 15⟩ ⟨2025, 6, 31⟩ 2 0 = coupncd ⟨2023, 0, 15⟩ ⟨2025, 6, 31⟩ 2 3) :=
  ⟨⟨by decide, by decide, by decide, by decide⟩,
    claim9_basis_independent _ _ _ _ _ (by decide) (by decide) (by decide) (by decide)⟩

theorem coupnum_value_aux {m p : CDate} {step f : Int} {k : Nat}
    (hmi : monthIndex p = monthIndex m - step * k) (hsf : step * f = 12) :
    ((((m.year - p.year) * 12 + ((m.month.val : Int) - (p.month.val : Int))) * f : Int) : ℚ) /
      12 = (k : ℚ) := by
  have hmonths : (m.year - p.year) * 12 + ((m.month.val : Int) - (p.month.val : Int)) =
      step * (k : Int) := by
    unfold monthIndex at hmi
    linarith
  rw [hmonths, show step * (k : Int) * f = 12 * (k : Int) from by
    rw [show step * (k : Int) * f = step * f * (k : Int) from by ring, hsf]]
  push_cast
  field_simp

/-- C10: on every valid input `coupnum` returns a strictly positive whole
number: the number of backward steps `couppcd` takes from maturity, since
each step moves the month index by exactly `12 / frequency`. -/
theorem claim10_coupnum_integral (s m : CDate) (f b : Int) (hs : s.Wf) (hm : m.Wf)
    (hf : validFrequency f) (hb : validBasis b) (hc : 0 < daysBetween s m 0) :
    0 < pcdCountF s (12 / f) (isEOM m) (pcdFuel s m) m ∧
    coupnum s m f b = .ok ((pcdCountF s (12 / f) (isEOM m) (pcdFuel s m) m : ℚ)) := by
  have hlt : CDate.lt s m := daysBetween_nasd_pos hs hm hc
  have hcount : 0 < pcdCountF s (12 / f) (isEOM m) (pcdFuel s m) m := by
    unfold pcdFuel
    simp only [pcdCountF, if_pos hlt]
    omega
  refine ⟨hcount, ?_⟩
  have hmi : monthIndex (couppcdCore s m f) =
      monthIndex m - (12 / f) * (pcdCountF s (12 / f) (isEOM m) (pcdFuel s m) m) := by
    unfold couppcdCore
    exact pcdLoopF_monthIndex s (12 / f) (isEOM m) (pcdFuel s m) m
  unfold coupnum
  rw [argsValidator_ok hf hb hc, couppcd_ok hf hb hc]
  simp only [splitDate]
  refine congrArg Except.ok ?_
  rcases hf with h | h | h <;> subst h <;>
    exact coupnum_value_aux hmi (by norm_num)

theorem claim10_witness :
    ((⟨2023, 0, 15⟩ : CDate).Wf ∧ (⟨2025, 6, 31⟩ : CDate).Wf ∧ validFrequency 2 ∧
      validBasis 0 ∧ 0 < daysBetween ⟨2023, 0, 15⟩ ⟨2025, 6, 31⟩ 0) ∧
    (0 < pcdCountF ⟨2023, 0, 15⟩ (12 / 2) (isEOM ⟨2025, 6, 31⟩)
        (pcdFuel ⟨2023, 0, 15⟩ ⟨2025, 6, 31⟩) ⟨2025, 6, 31⟩ ∧
      coupnum ⟨2023, 0, 15⟩ ⟨2025, 6, 31⟩ 2 0 =
        .ok ((pcdCountF ⟨2023, 0, 15⟩ (12 / 2) (isEOM ⟨2025, 6, 31⟩)
          (pcdFuel ⟨2023, 0, 15⟩ ⟨2025, 6, 31⟩) ⟨2025, 6, 31⟩ : ℚ))) :=
  ⟨⟨by decide, by decide, by decide, by decide, by decide⟩,
    claim10_coupnum_integral _ _ _ _ (by decide) (by decide) (by decide) (by decide)
      (by decide)⟩

/-- C5: the validator realises the spec's ordered checklist — presence,
settlement date, maturity date, frequency, basis, range — raising the first
applicable error and returning `true` when every check passes. -/
theorem claim5_validator_first_error (s m : Option (Option CDate))
    (f : Option Int) (b : Int) :
    argsValidator s m f b = firstFailure (validatorChecklist s m f b) := by
  rcases s with _ | (_ | sd) <;> rcases m with _ | (_ | md) <;> rcases f with _ | fr <;>
    try rfl
  case some.some.some =>
    show (if ¬ validFrequency fr then
        (Except.error CouponError.invalidFrequency : Except CouponError Bool)
      else if ¬ validBasis b then Except.error CouponError.invalidBasis
      else if daysBetween sd md 0 ≤ 0 then Except.error CouponError.invalidDateRange
      else Except.ok true) =
      firstFailure [(decide (validFrequency fr), CouponError.invalidFrequency),
        (decide (validBasis b), CouponError.invalidBasis),
        (decide (0 < daysBetween sd md 0), CouponError.invalidDateRange)]
    by_cases hfr : validFrequency fr
    · rw [if_neg (not_not.mpr hfr)]
      by_cases hbb : validBasis b
      · rw [if_neg (not_not.mpr hbb)]
        by_cases hr : daysBetween sd md 0 ≤ 0
        · rw [if_pos hr]
          have h6 : decide (0 < daysBetween sd md 0) = false := decide_eq_false (by omega)
          simp [firstFailure, decide_eq_true hfr, decide_eq_true hbb, h6]
        · rw [if_neg hr]
          have h6 : decide (0 < daysBetween sd md 0) = true := decide_eq_true (by omega)
          simp [firstFailure, decide_eq_true hfr, decide_eq_true hbb, h6]
      · rw [if_pos hbb]
        simp [firstFailure, decide_eq_true hfr, decide_eq_false hbb]
    · rw [if_pos hfr]
      simp [firstFailure, decide_eq_false hfr]

end Finxl
